import Mathlib

/-!
Shallow embedding of the Ethereum transaction signing flow of
`src/rust/bitbox02-rust/src/hww/api/ethereum/sign.rs` (bitbox02-firmware).

Byte strings are modelled as `List Nat` (each element a byte value), big
integers (`num_bigint::BigUint`) as `Nat`.  The external collaborators
(per-coin parameter tables, ERC20 token tables, keypath heuristics, the
confirmation UI, the sighash primitive, the keystore and the anti-klepto
host round trip) are fields of an `Env` record.  `process` returns the
ordered list of side-effecting calls it made (the trace) together with its
`Except Error` result, so that ordering and abort properties are statable.
-/

namespace BitBox

/-! ## Data model and embedded operations -/

/-- The error type of the hww api (`Error` in the Rust source); only the
variants reachable from this module are modelled. -/
inductive Error where
  | invalidInput
  | userAbort
  | generic
  deriving DecidableEq, Repr

/-- Per-coin parameters (`bitbox02::app_eth::Params`): display name, unit
string and chain id. -/
structure Params where
  name : String
  unit : String
  chainId : Nat
  deriving DecidableEq, Repr

/-- Per-token parameters (`bitbox02::app_eth::ERC20Params`): unit string and
number of decimal places. -/
structure ERC20Params where
  unit : String
  decimals : Nat
  deriving DecidableEq, Repr

/-- The request message (`pb::EthSignRequest`). -/
structure EthSignRequest where
  coin : Nat
  keypath : List Nat
  nonce : List Nat
  gas_price : List Nat
  gas_limit : List Nat
  recipient : List Nat
  value : List Nat
  data : List Nat
  host_nonce_commitment : Option (List Nat)
  deriving DecidableEq, Repr

/-- The response message (`pb::EthSignResponse`). -/
structure EthSignResponse where
  signature : List Nat
  deriving DecidableEq, Repr

/-- Result of `keystore::secp256k1_sign`: 64 signature bytes and a recovery
id byte. -/
structure SignResult where
  signature : List Nat
  recid : Nat
  deriving DecidableEq, Repr

/-- Argument record of `bitbox02::app_eth::sighash`. -/
structure SighashParams where
  nonce : List Nat
  gasPrice : List Nat
  gasLimit : List Nat
  recipient : List Nat
  value : List Nat
  data : List Nat
  chainId : Nat
  deriving DecidableEq, Repr

/-- One confirmation request shown to the user. -/
inductive ConfirmEvent where
  /-- Modelled from the spec: the unusual-keypath warning issued by
  `super::keypath::warn_unusual_keypath` (not among the included sources);
  per the spec it names the coin and shows the keypath. -/
  | warnKeypath (coinName : String) (keypath : List Nat)
  /-- A `confirm::confirm` dialog with its title, body, scrollable flag,
  display size and accept-is-nextarrow flag. -/
  | dialog (title : String) (body : String) (scrollable : Bool)
      (displaySize : Nat) (acceptIsNextarrow : Bool)
  /-- `transaction::verify_recipient(address, amount)`. -/
  | verifyRecipient (address : String) (amount : String)
  /-- `transaction::verify_total_fee(total, fee)`. -/
  | verifyTotalFee (total : String) (fee : String)
  deriving DecidableEq, Repr

/-- One observable side-effecting call made while processing a request. -/
inductive Event where
  | confirm (c : ConfirmEvent)
  /-- The transaction hash computation (`app_eth::sighash`). -/
  | sighash (p : SighashParams)
  /-- `keystore::secp256k1_nonce_commit(keypath, hash, commitment)`. -/
  | nonceCommit (keypath : List Nat) (hash : List Nat) (commitment : List Nat)
  /-- The anti-klepto host round trip (`antiklepto_get_host_nonce`). -/
  | hostNonceExchange (signerCommitment : List Nat)
  /-- `keystore::secp256k1_sign(keypath, hash, hostNonce)`. -/
  | sign (keypath : List Nat) (hash : List Nat) (hostNonce : List Nat)
  deriving DecidableEq, Repr

/-- The external collaborators, as response functions. -/
structure Env where
  /-- `bitbox02::app_eth::params_get`. -/
  paramsGet : Nat → Option Params
  /-- `bitbox02::app_eth::erc20_params_get`, keyed by coin and 20-byte
  contract address. -/
  erc20ParamsGet : Nat → List Nat → Option ERC20Params
  /-- `super::keypath::is_valid_keypath_address` (external check, pure). -/
  isValidKeypathAddress : List Nat → Bool
  /-- Modelled from the spec: whether `warn_unusual_keypath` considers the
  keypath unusual for the coin and hence issues its warning confirmation. -/
  isUnusualKeypath : String → List Nat → Bool
  /-- The confirmation collaborator's accept/reject answer for each
  confirmation request. -/
  respond : ConfirmEvent → Bool
  /-- `super::address::from_pubkey_hash` (external, pure formatting). -/
  fromPubkeyHash : List Nat → String
  /-- `app_eth::sighash`; `none` models its error result. -/
  sighashFn : SighashParams → Option (List Nat)
  /-- `keystore::secp256k1_nonce_commit`; `none` models a keystore fault. -/
  nonceCommitFn : List Nat → List Nat → List Nat → Option (List Nat)
  /-- `antiklepto_get_host_nonce`: the host round trip. -/
  hostNonceFn : List Nat → Except Error (List Nat)
  /-- `keystore::secp256k1_sign`; `none` models a keystore fault. -/
  signFn : List Nat → List Nat → List Nat → Option SignResult

/-- A computation that produced a trace of events and a result. -/
abbrev M (α : Type) : Type := List Event × Except Error α

/-- Sequencing: run `x`; on success feed its result to `f`, concatenating
traces; on error stop with `x`'s trace and error. -/
def seqE {α β : Type} (x : M α) (f : α → M β) : M β :=
  match x with
  | (es, Except.ok a) => ((es ++ (f a).1 : List Event), (f a).2)
  | (es, Except.error e) => (es, Except.error e)

/-- Issue one confirmation request and consult the collaborator; rejection
is `UserAbort`. -/
def confirmStep (env : Env) (c : ConfirmEvent) : M Unit :=
  ([Event.confirm c],
    if env.respond c then Except.ok () else Except.error Error.userAbort)

-- 1 ETH = 1e18 wei.
def WEI_DECIMALS : Nat := 18

/-- Modelled from the spec: the signing primitive's expected fixed byte
width for the host nonce commitment (a compressed secp256k1 point; the
keystore module supplying the width is not among the included sources). -/
def COMMITMENT_LEN : Nat := 33

/-- `BigUint::from_bytes_be`. -/
def beBytesToNat (l : List Nat) : Nat :=
  l.foldl (fun acc b => acc * 256 + b) 0

/-- An amount: unit label, decimal places, arbitrary-precision magnitude
(`super::amount::Amount`, whose source is not included; the structure is
taken from the spec). -/
structure Amount where
  unit : String
  decimals : Nat
  value : Nat
  deriving DecidableEq, Repr

/-- Left-pad a string with zero digits to length `n`. -/
def padLeftZeros (s : String) (n : Nat) : String :=
  String.mk (List.replicate (n - s.length) (Char.ofNat 48)) ++ s

/-- Strip trailing `0` characters. -/
def stripTrailingZeros (s : String) : String :=
  String.mk ((s.data.reverse.dropWhile (fun c => c == Char.ofNat 48)).reverse)

/-- Modelled from the spec: `Amount::format` (in `super::amount`, not among
the included sources).  Per spec section 4.2: integer part is the magnitude
divided by `10^decimals`; the fractional part is the remainder zero-padded
to `decimals` digits with trailing zeros stripped, dropped entirely when
zero; output `<integer>[.<fraction>] <unit>`. -/
def Amount.format (a : Amount) : String :=
  let p := 10 ^ a.decimals
  let intPart := Nat.repr (a.value / p)
  let fr := stripTrailingZeros (padLeftZeros (Nat.repr (a.value % p)) a.decimals)
  if fr = "" then intPart ++ " " ++ a.unit
  else intPart ++ "." ++ fr ++ " " ++ a.unit

/-- One hex digit (lower case), as in `hex::encode`. -/
def hexDigit (n : Nat) : Char :=
  if n < 10 then Char.ofNat (48 + n) else Char.ofNat (87 + n)

/-- `hex::encode` of a byte string. -/
def hexEncode (l : List Nat) : String :=
  String.mk (l.foldr (fun b acc => hexDigit (b / 16) :: hexDigit (b % 16) :: acc) [])

/-- The `if let [0, ..] = ...` patterns of `process`: a non-empty byte
string whose first byte is zero. -/
def startsWithZero : List Nat → Bool
  | 0 :: _ => true
  | _ => false

/-- `parse_recipient`: converts `recipient` to a 20-byte address; anything
not exactly 20 bytes is `InvalidInput`. -/
def parse_recipient (recipient : List Nat) : Except Error (List Nat) :=
  if recipient.length = 20 then Except.ok recipient
  else Except.error Error.invalidInput

/-- `parse_erc20`: checks whether the transaction is an ERC20 transfer
(`<0xa9059cbb><32 bytes recipient><32 bytes value>` with empty native
value); on success returns the 20-byte token recipient and the value. -/
def parse_erc20 (request : EthSignRequest) : Option (List Nat × Nat) :=
  if ¬ request.value = [] ∨ ¬ request.data.length = 68 then none
  else if ¬ request.data.take 4 = [0xa9, 0x05, 0x9c, 0xbb] then none
  else if ¬ ((request.data.drop 4).take 32).take 12 = List.replicate 12 0 then none
  else if (request.data.drop 36).take 32 = List.replicate 32 0 then none
  else some (((request.data.drop 4).take 32).drop 12,
             beBytesToNat ((request.data.drop 36).take 32))

/-- `parse_fee`: fee = gas limit * gas price, in the coin's unit with wei
decimals. -/
def parse_fee (request : EthSignRequest) (params : Params) : Amount :=
  { unit := params.unit
    decimals := WEI_DECIMALS
    value := beBytesToNat request.gas_price * beBytesToNat request.gas_limit }

/-- Modelled from the spec: `super::keypath::warn_unusual_keypath` (not
among the included sources).  When the keypath is unusual for the coin it
requests a warning confirmation naming the coin; rejection aborts with
`UserAbort`, otherwise processing continues. -/
def warn_unusual_keypath (env : Env) (params : Params) (keypath : List Nat) : M Unit :=
  if env.isUnusualKeypath params.name keypath then
    confirmStep env (ConfirmEvent.warnKeypath params.name keypath)
  else ([], Except.ok ())

/-- The amount/total strings displayed for an ERC20 transfer, by token
lookup result (the `match erc20_params` expression of
`verify_erc20_transaction`). -/
def erc20Display (env : Env) (request : EthSignRequest) (r : List Nat)
    (erc20_value : Nat) : String × String :=
  match env.erc20ParamsGet request.coin r with
  | some ep =>
      let v := Amount.format
        { unit := ep.unit, decimals := ep.decimals, value := erc20_value }
      (v, v)
  | none => ("Unknown token", "Unknown amount")

/-- `verify_erc20_transaction`. -/
def verify_erc20_transaction (env : Env) (request : EthSignRequest)
    (params : Params) (erc20_recipient : List Nat) (erc20_value : Nat) : M Unit :=
  match parse_recipient request.recipient with
  | Except.error e => ([], Except.error e)
  | Except.ok r =>
    seqE (confirmStep env (ConfirmEvent.verifyRecipient
        (env.fromPubkeyHash erc20_recipient)
        (erc20Display env request r erc20_value).1))
      (fun _ =>
        confirmStep env (ConfirmEvent.verifyTotalFee
          (erc20Display env request r erc20_value).2
          (Amount.format (parse_fee request params))))

/-- `verify_standard_transaction`. -/
def verify_standard_transaction (env : Env) (request : EthSignRequest)
    (params : Params) : M Unit :=
  if request.data = [] ∧ request.value = [] then
    ([], Except.error Error.invalidInput)
  else
    match parse_recipient request.recipient with
    | Except.error e => ([], Except.error e)
    | Except.ok recipient =>
      seqE
        (if request.data = [] then ([], Except.ok ())
         else
          seqE (confirmStep env (ConfirmEvent.dialog "Unknown\ncontract"
              "You will be shown\nthe raw\ntransaction data." false 0 true))
            (fun _ =>
              seqE (confirmStep env (ConfirmEvent.dialog "Unknown\ncontract"
                  "Only proceed if you\nunderstand exactly\nwhat the data means." false 0 true))
                (fun _ =>
                  confirmStep env (ConfirmEvent.dialog "Transaction\ndata"
                    (hexEncode request.data) true request.data.length true))))
        (fun _ =>
          seqE (confirmStep env (ConfirmEvent.verifyRecipient
              (env.fromPubkeyHash recipient)
              (Amount.format { unit := params.unit, decimals := WEI_DECIMALS
                               value := beBytesToNat request.value })))
            (fun _ =>
              confirmStep env (ConfirmEvent.verifyTotalFee
                (Amount.format { unit := params.unit, decimals := WEI_DECIMALS
                                 value := beBytesToNat request.value
                                   + (parse_fee request params).value })
                (Amount.format (parse_fee request params)))))

/-- The sighash computation step of `process`: a failing `sighash` maps to
`InvalidInput`. -/
def sighashStep (env : Env) (request : EthSignRequest) (recipient : List Nat)
    (params : Params) : M (List Nat) :=
  let p : SighashParams :=
    { nonce := request.nonce
      gasPrice := request.gas_price
      gasLimit := request.gas_limit
      recipient := recipient
      value := request.value
      data := request.data
      chainId := params.chainId }
  ([Event.sighash p],
    match env.sighashFn p with
    | some h => Except.ok h
    | none => Except.error Error.invalidInput)

/-- The anti-klepto stage of `process`: with a host commitment, check its
fixed width, call the keystore nonce commit, then the host round trip;
without one, use the zero placeholder. -/
def hostNonceStage (env : Env) (request : EthSignRequest) (hash : List Nat) :
    M (List Nat) :=
  match request.host_nonce_commitment with
  | some commitment =>
      if commitment.length = COMMITMENT_LEN then
        seqE ([Event.nonceCommit request.keypath hash commitment],
              match env.nonceCommitFn request.keypath hash commitment with
              | some sc => Except.ok sc
              | none => Except.error Error.generic)
          (fun signer_commitment =>
            ([Event.hostNonceExchange signer_commitment],
              env.hostNonceFn signer_commitment))
      else ([], Except.error Error.invalidInput)
  | none => ([], Except.ok (List.replicate 32 0))

/-- The final signing step of `process`: sign and assemble the response
(signature bytes followed by the recovery id byte). -/
def signStage (env : Env) (request : EthSignRequest) (hash : List Nat)
    (host_nonce : List Nat) : M EthSignResponse :=
  ([Event.sign request.keypath hash host_nonce],
    match env.signFn request.keypath hash host_nonce with
    | some sr => Except.ok { signature := sr.signature ++ [sr.recid] }
    | none => Except.error Error.generic)

/-- The post-confirmation pipeline of `process`: hash, anti-klepto stage,
signing. -/
def signStages (env : Env) (request : EthSignRequest) (recipient : List Nat)
    (params : Params) : M EthSignResponse :=
  seqE (sighashStep env request recipient params)
    (fun hash =>
      seqE (hostNonceStage env request hash)
        (fun host_nonce => signStage env request hash host_nonce))

/-- `process`: verify and sign an Ethereum transaction. -/
def process (env : Env) (request : EthSignRequest) : M EthSignResponse :=
  match env.paramsGet request.coin with
  | none => ([], Except.error Error.invalidInput)
  | some params =>
    if ¬ env.isValidKeypathAddress request.keypath then
      ([], Except.error Error.invalidInput)
    else
      seqE (warn_unusual_keypath env params request.keypath)
        (fun _ =>
          if 16 < request.nonce.length ∨ 16 < request.gas_price.length
              ∨ 16 < request.gas_limit.length ∨ 32 < request.value.length
              ∨ 1024 < request.data.length then
            ([], Except.error Error.invalidInput)
          else if startsWithZero request.nonce then
            ([], Except.error Error.invalidInput)
          else if startsWithZero request.gas_price then
            ([], Except.error Error.invalidInput)
          else if startsWithZero request.gas_limit then
            ([], Except.error Error.invalidInput)
          else if startsWithZero request.value then
            ([], Except.error Error.invalidInput)
          else
            match parse_recipient request.recipient with
            | Except.error e => ([], Except.error e)
            | Except.ok recipient =>
              if recipient = List.replicate 20 0 then
                ([], Except.error Error.invalidInput)
              else
                seqE
                  (match parse_erc20 request with
                   | some rv =>
                      verify_erc20_transaction env request params rv.1 rv.2
                   | none => verify_standard_transaction env request params)
                  (fun _ => signStages env request recipient params))

def isConfirm : Event → Bool
  | Event.confirm _ => true
  | _ => false

/-- The confirmation-phase invariant: the trace holds only confirmation
events, and a rejected confirmation makes the result `UserAbort` with the
rejected confirmation as the final event. -/
def ConfProp (env : Env) {α : Type} (x : M α) : Prop :=
  (∀ e ∈ x.1, isConfirm e = true) ∧
  ∀ c, Event.confirm c ∈ x.1 → env.respond c = false →
    x.2 = Except.error Error.userAbort ∧ x.1.getLast? = some (Event.confirm c)

/-- A rejected confirmation anywhere in the trace makes the result
`UserAbort`, ends the trace there, and leaves only confirmation events. -/
def RejProp (env : Env) {α : Type} (x : M α) : Prop :=
  ∀ c, Event.confirm c ∈ x.1 → env.respond c = false →
    x.2 = Except.error Error.userAbort ∧
    x.1.getLast? = some (Event.confirm c) ∧
    ∀ e ∈ x.1, isConfirm e = true

/-- Test fixture: coin 0 resolves, every keypath is valid and usual, every
confirmation is accepted, and the externals respond with fixed bytes. -/
def testParams : Params := { name := "Ethereum", unit := "ETH", chainId := 1 }

def testEnv : Env :=
  { paramsGet := fun c => if c = 0 then some testParams else none
    erc20ParamsGet := fun _ r =>
      if r = List.replicate 20 9 then some { unit := "USDT", decimals := 6 } else none
    isValidKeypathAddress := fun _ => true
    isUnusualKeypath := fun _ _ => false
    respond := fun _ => true
    fromPubkeyHash := fun _ => "0xADDR"
    sighashFn := fun _ => some (List.replicate 32 1)
    nonceCommitFn := fun _ _ _ => some (List.replicate 33 2)
    hostNonceFn := fun _ => Except.ok (List.replicate 32 3)
    signFn := fun _ _ _ => some { signature := List.replicate 64 4, recid := 0 } }

/-- Test fixture: a well-formed standard transfer with empty payload. -/
def stdReq : EthSignRequest :=
  { coin := 0, keypath := [44, 60, 0, 0, 0], nonce := [1], gas_price := [2]
    gas_limit := [3], recipient := List.replicate 20 5, value := [7]
    data := [], host_nonce_commitment := none }

/-- Test fixture: `testEnv` but the user rejects the recipient screen. -/
def rejectRecipientEnv : Env :=
  { testEnv with
    respond := fun c =>
      match c with
      | ConfirmEvent.verifyRecipient _ _ => false
      | _ => true }

/-- All checks of the Input Validator stage that follow the unusual-keypath
warning in `process`: size ceilings, canonical encoding, recipient length
and non-zero recipient. -/
def inputChecksOk (req : EthSignRequest) : Prop :=
  req.nonce.length ≤ 16 ∧ req.gas_price.length ≤ 16 ∧
  req.gas_limit.length ≤ 16 ∧ req.value.length ≤ 32 ∧ req.data.length ≤ 1024 ∧
  startsWithZero req.nonce = false ∧ startsWithZero req.gas_price = false ∧
  startsWithZero req.gas_limit = false ∧ startsWithZero req.value = false ∧
  req.recipient.length = 20 ∧ ¬ req.recipient = List.replicate 20 0

/-- Protocol- or keystore-touching events: nonce commit, host round trip,
signing. -/
def isProtocolCall : Event → Bool
  | Event.nonceCommit _ _ _ => true
  | Event.hostNonceExchange _ => true
  | Event.sign _ _ _ => true
  | _ => false

/-- Test fixture: `testEnv` but every keypath counts as unusual, so the
warning confirmation is issued. -/
def unusualEnv : Env := { testEnv with isUnusualKeypath := fun _ _ => true }

/-- Test fixture: `stdReq` with a 17-byte nonce, violating the 16-byte
ceiling. -/
def oversizedReq : EthSignRequest := { stdReq with nonce := List.replicate 17 1 }

/-- Test fixture: a well-formed ERC20 transfer of 57 token units to the
20-byte address of 7-bytes, via the contract at the 20-byte address of
9-bytes (which `testEnv` resolves to 6-decimal "USDT"). -/
def erc20Req : EthSignRequest :=
  { coin := 0, keypath := [44, 60, 0, 0, 0], nonce := [1], gas_price := [2]
    gas_limit := [3], recipient := List.replicate 20 9, value := []
    data := [0xa9, 0x05, 0x9c, 0xbb] ++ List.replicate 12 0
      ++ List.replicate 20 7 ++ List.replicate 31 0 ++ [57]
    host_nonce_commitment := none }

/-- Test fixture: `stdReq` with both payload and value empty. -/
def emptyReq : EthSignRequest := { stdReq with value := [] }

/-- Test fixture: `stdReq` with the all-zero 20-byte recipient. -/
def zeroRecipientReq : EthSignRequest :=
  { stdReq with recipient := List.replicate 20 0 }

/-- Test fixture: `stdReq` with a 3-byte host nonce commitment. -/
def badCommitReq : EthSignRequest :=
  { stdReq with host_nonce_commitment := some [1, 2, 3] }

/-! ## Theorems -/

lemma seqE_ok {α β : Type} {x : M α} {a : α} (h : x.2 = Except.ok a) (f : α → M β) :
    seqE x f = (x.1 ++ (f a).1, (f a).2) := by
  obtain ⟨es, r⟩ := x
  simp only at h
  subst h
  rfl

lemma seqE_error {α β : Type} {x : M α} {e : Error} (h : x.2 = Except.error e)
    (f : α → M β) : seqE x f = (x.1, Except.error e) := by
  obtain ⟨es, r⟩ := x
  simp only at h
  subst h
  rfl

lemma mem_seqE {α β : Type} {x : M α} {f : α → M β} {ev : Event}
    (h : ev ∈ (seqE x f).1) :
    ev ∈ x.1 ∨ ∃ a, x.2 = Except.ok a ∧ ev ∈ (f a).1 := by
  obtain ⟨es, r⟩ := x
  cases r with
  | ok a =>
      rw [seqE_ok rfl] at h
      rcases List.mem_append.mp h with h' | h'
      · exact Or.inl h'
      · exact Or.inr ⟨a, rfl, h'⟩
  | error e =>
      rw [seqE_error rfl] at h
      exact Or.inl h

lemma confProp_nil (env : Env) {α : Type} (r : Except Error α) :
    ConfProp env (([], r) : M α) := by
  simp [ConfProp]

lemma confProp_confirmStep (env : Env) (c : ConfirmEvent) :
    ConfProp env (confirmStep env c) := by
  constructor
  · intro e he
    simp only [confirmStep, List.mem_singleton] at he
    simp [he, isConfirm]
  · intro c' hc hr
    simp only [confirmStep, List.mem_singleton, Event.confirm.injEq] at hc
    subst hc
    simp [confirmStep, hr]

lemma confProp_seqE {α β : Type} {env : Env} {x : M α} {f : α → M β}
    (hx : ConfProp env x) (hf : ∀ a, ConfProp env (f a)) :
    ConfProp env (seqE x f) := by
  obtain ⟨es, r⟩ := x
  cases r with
  | error e =>
      rw [seqE_error rfl]
      refine ⟨hx.1, fun c hc hr => ?_⟩
      obtain ⟨h1, h2⟩ := hx.2 c hc hr
      simp only at h1
      rw [Except.error.injEq] at h1
      exact ⟨by rw [h1], h2⟩
  | ok a =>
      rw [seqE_ok rfl]
      constructor
      · intro e he
        rcases List.mem_append.mp he with h' | h'
        · exact hx.1 e h'
        · exact (hf a).1 e h'
      · intro c hc hr
        rcases List.mem_append.mp hc with h' | h'
        · exact absurd ((hx.2 c h' hr).1) (by simp)
        · refine ⟨((hf a).2 c h' hr).1, ?_⟩
          rw [List.getLast?_append, ((hf a).2 c h' hr).2]
          rfl

lemma confProp_warn (env : Env) (params : Params) (keypath : List Nat) :
    ConfProp env (warn_unusual_keypath env params keypath) := by
  unfold warn_unusual_keypath
  split
  · exact confProp_confirmStep env _
  · exact confProp_nil env _

lemma confProp_std (env : Env) (req : EthSignRequest) (params : Params) :
    ConfProp env (verify_standard_transaction env req params) := by
  unfold verify_standard_transaction
  split
  · exact confProp_nil env _
  · split
    · exact confProp_nil env _
    · refine confProp_seqE ?_ (fun _ => ?_)
      · split
        · exact confProp_nil env _
        · exact confProp_seqE (confProp_confirmStep env _)
            (fun _ => confProp_seqE (confProp_confirmStep env _)
              (fun _ => confProp_confirmStep env _))
      · exact confProp_seqE (confProp_confirmStep env _)
          (fun _ => confProp_confirmStep env _)

lemma confProp_erc20 (env : Env) (req : EthSignRequest) (params : Params)
    (r20 : List Nat) (v : Nat) :
    ConfProp env (verify_erc20_transaction env req params r20 v) := by
  unfold verify_erc20_transaction
  split
  · exact confProp_nil env _
  · exact confProp_seqE (confProp_confirmStep env _)
      (fun _ => confProp_confirmStep env _)

lemma noConfirm_signStages (env : Env) (req : EthSignRequest)
    (recipient : List Nat) (params : Params) :
    ∀ e ∈ (signStages env req recipient params).1, isConfirm e = false := by
  intro e he
  rcases mem_seqE he with h | ⟨hash, -, h⟩
  · simp only [sighashStep, List.mem_singleton] at h
    simp [h, isConfirm]
  · rcases mem_seqE h with h2 | ⟨hn, -, h2⟩
    · unfold hostNonceStage at h2
      split at h2
      next commitment =>
        split at h2
        · rcases mem_seqE h2 with h3 | ⟨sc, -, h3⟩
          · simp only [List.mem_singleton] at h3
            simp [h3, isConfirm]
          · simp only [List.mem_singleton] at h3
            simp [h3, isConfirm]
        · simp at h2
      next => simp at h2
    · simp only [signStage, List.mem_singleton] at h2
      simp [h2, isConfirm]

lemma rejProp_nil (env : Env) {α : Type} (r : Except Error α) :
    RejProp env (([], r) : M α) := by
  simp [RejProp]

lemma rejProp_of_noConfirm {env : Env} {α : Type} {x : M α}
    (h : ∀ e ∈ x.1, isConfirm e = false) : RejProp env x := by
  intro c hc _
  have := h _ hc
  simp [isConfirm] at this

lemma rejProp_seqE {α β : Type} {env : Env} {x : M α} {f : α → M β}
    (hx : ConfProp env x) (hf : ∀ a, RejProp env (f a)) :
    RejProp env (seqE x f) := by
  obtain ⟨es, r⟩ := x
  cases r with
  | error e =>
      rw [seqE_error rfl]
      intro c hc hr
      obtain ⟨h1, h2⟩ := hx.2 c hc hr
      simp only at h1
      rw [Except.error.injEq] at h1
      exact ⟨by rw [h1], h2, hx.1⟩
  | ok a =>
      rw [seqE_ok rfl]
      intro c hc hr
      rcases List.mem_append.mp hc with h' | h'
      · exact absurd ((hx.2 c h' hr).1) (by simp)
      · obtain ⟨h1, h2, h3⟩ := hf a c h' hr
        refine ⟨h1, ?_, ?_⟩
        · rw [List.getLast?_append, h2]
          rfl
        · intro e he
          rcases List.mem_append.mp he with he' | he'
          · exact hx.1 e he'
          · exact h3 e he'

lemma rejProp_of_confProp {env : Env} {α : Type} {x : M α}
    (hx : ConfProp env x) : RejProp env x := by
  intro c hc hr
  exact ⟨(hx.2 c hc hr).1, (hx.2 c hc hr).2, hx.1⟩

lemma rejProp_process (env : Env) (req : EthSignRequest) :
    RejProp env (process env req) := by
  unfold process
  split
  · exact rejProp_nil env _
  · split
    · exact rejProp_nil env _
    · refine rejProp_seqE (confProp_warn env _ _) (fun _ => ?_)
      split
      · exact rejProp_nil env _
      · split
        · exact rejProp_nil env _
        · split
          · exact rejProp_nil env _
          · split
            · exact rejProp_nil env _
            · split
              · exact rejProp_nil env _
              · split
                · exact rejProp_nil env _
                · split
                  · exact rejProp_nil env _
                  · refine rejProp_seqE ?_
                      (fun _ => rejProp_of_noConfirm (noConfirm_signStages env req _ _))
                    split
                    · exact confProp_erc20 env req _ _ _
                    · exact confProp_std env req _

/-- Full characterization of `parse_erc20` (helper shared by several
theorems below). -/
lemma parse_erc20_eq (req : EthSignRequest) (r : List Nat) (m : Nat) :
    parse_erc20 req = some (r, m) ↔
      (req.value = [] ∧ req.data.length = 68 ∧
       req.data.take 4 = [0xa9, 0x05, 0x9c, 0xbb] ∧
       (req.data.drop 4).take 12 = List.replicate 12 0 ∧
       ¬ (req.data.drop 36).take 32 = List.replicate 32 0 ∧
       r = (req.data.drop 16).take 20 ∧
       m = beBytesToNat ((req.data.drop 36).take 32)) := by
  constructor
  · intro h
    simp only [parse_erc20] at h
    split_ifs at h with h1 h2 h3 h4
    rw [Option.some.injEq, Prod.mk.injEq] at h
    push_neg at h1
    rw [List.take_take, show (12 : Nat) ⊓ 32 = 12 from by norm_num] at h3
    refine ⟨h1.1, h1.2, h2, h3, h4, ?_, h.2.symm⟩
    rw [← h.1, List.drop_take, List.drop_drop]
  · rintro ⟨hv, hl, hsel, hpad, hz, hr, hm⟩
    simp only [parse_erc20, hv, hl, hsel, hz, List.take_take,
      show (12 : Nat) ⊓ 32 = 12 from by norm_num, hpad]
    simp only [not_true_eq_false, not_false_eq_true, false_or, or_self,
      if_false, if_true, ite_false, ite_true]
    rw [hr, hm, List.drop_take, List.drop_drop]

/-- C1: the classifier yields a token transfer exactly when the native
value is empty, the payload is 68 bytes, the first 4 bytes are the fixed
selector `0xa9059cbb`, payload bytes 4–16 are all zero and bytes 36–68 are
not all zero; the recipient is then bytes 16–36 and the magnitude the
big-endian integer of bytes 36–68; in every other case the classification
falls through to the standard transfer (`none`). -/
theorem c1_token_classification (req : EthSignRequest) (r : List Nat) (m : Nat) :
    parse_erc20 req = some (r, m) ↔
      (req.value = [] ∧ req.data.length = 68 ∧
       req.data.take 4 = [0xa9, 0x05, 0x9c, 0xbb] ∧
       (req.data.drop 4).take 12 = List.replicate 12 0 ∧
       ¬ (req.data.drop 36).take 32 = List.replicate 32 0 ∧
       r = (req.data.drop 16).take 20 ∧
       m = beBytesToNat ((req.data.drop 36).take 32)) :=
  parse_erc20_eq req r m

/-- C10: with a 68-byte payload every slice taken by `parse_erc20` has
exactly the intended length (so every access is in bounds), and a returned
token recipient always has exactly 20 bytes, so the conversion to a 20-byte
array cannot fail. -/
theorem c10_parse_erc20_total (req : EthSignRequest) (h : req.data.length = 68) :
    (req.data.take 4).length = 4 ∧
    ((req.data.drop 4).take 32).length = 32 ∧
    ((req.data.drop 36).take 32).length = 32 ∧
    (((req.data.drop 4).take 32).take 12).length = 12 ∧
    (((req.data.drop 4).take 32).drop 12).length = 20 ∧
    ∀ r m, parse_erc20 req = some (r, m) → r.length = 20 := by
  refine ⟨?_, ?_, ?_, ?_, ?_, ?_⟩
  · simp [h]
  · simp [h]
  · simp [h]
  · simp [h]
  · simp [h]
  · intro r m hp
    obtain ⟨-, -, -, -, -, hr, -⟩ := (parse_erc20_eq req r m).mp hp
    rw [hr]
    simp [h]

/-- C3: if the collaborator rejects any confirmation step, the operation
returns `UserAbort`, the rejected confirmation is the last event (no later
confirmation step runs), and no transaction hash is computed and no
key-storage call (nonce commit or sign) and no host round trip occurs. -/
theorem c3_reject_aborts (env : Env) (req : EthSignRequest) (c : ConfirmEvent)
    (hmem : Event.confirm c ∈ (process env req).1)
    (hrej : env.respond c = false) :
    (process env req).2 = Except.error Error.userAbort ∧
    (process env req).1.getLast? = some (Event.confirm c) ∧
    (∀ p, Event.sighash p ∉ (process env req).1) ∧
    (∀ k h cm, Event.nonceCommit k h cm ∉ (process env req).1) ∧
    (∀ sc, Event.hostNonceExchange sc ∉ (process env req).1) ∧
    (∀ k h n, Event.sign k h n ∉ (process env req).1) := by
  obtain ⟨h1, h2, h3⟩ := rejProp_process env req c hmem hrej
  refine ⟨h1, h2, ?_, ?_, ?_, ?_⟩
  · intro p hp
    have := h3 _ hp
    simp [isConfirm] at this
  · intro k h cm hp
    have := h3 _ hp
    simp [isConfirm] at this
  · intro sc hp
    have := h3 _ hp
    simp [isConfirm] at this
  · intro k h n hp
    have := h3 _ hp
    simp [isConfirm] at this

theorem c3_reject_aborts_witness :
    Event.confirm (ConfirmEvent.verifyRecipient "0xADDR" "0.000000000000000007 ETH")
        ∈ (process rejectRecipientEnv stdReq).1 ∧
    rejectRecipientEnv.respond
        (ConfirmEvent.verifyRecipient "0xADDR" "0.000000000000000007 ETH") = false ∧
    (process rejectRecipientEnv stdReq).2 = Except.error Error.userAbort :=
  ⟨by decide, by decide,
    (c3_reject_aborts rejectRecipientEnv stdReq
      (ConfirmEvent.verifyRecipient "0xADDR" "0.000000000000000007 ETH")
      (by decide) (by decide)).1⟩

lemma parse_recipient_ok {r rec : List Nat} (h : parse_recipient r = Except.ok rec) :
    r.length = 20 ∧ rec = r := by
  unfold parse_recipient at h
  split at h
  · simp only [Except.ok.injEq] at h
    constructor
    · assumption
    · exact h.symm
  · simp at h

/-- Any confirmation in a `process` trace presupposes a resolved coin and a
valid keypath; it is either the unusual-keypath warning, or all remaining
input checks passed and it belongs to the classified verification branch. -/
lemma process_confirm_mem (env : Env) (req : EthSignRequest) (c : ConfirmEvent)
    (h : Event.confirm c ∈ (process env req).1) :
    ∃ params, env.paramsGet req.coin = some params ∧
      env.isValidKeypathAddress req.keypath = true ∧
      (c = ConfirmEvent.warnKeypath params.name req.keypath ∨
       (inputChecksOk req ∧
        Event.confirm c ∈
          (match parse_erc20 req with
           | some rv => verify_erc20_transaction env req params rv.1 rv.2
           | none => verify_standard_transaction env req params).1)) := by
  unfold process at h
  split at h
  · simp at h
  next params hp =>
    split at h
    · simp at h
    next hkp =>
      refine ⟨params, hp, by simpa using hkp, ?_⟩
      rcases mem_seqE h with hw | ⟨a, hwok, h2⟩
      · unfold warn_unusual_keypath at hw
        split at hw
        · simp only [confirmStep, List.mem_singleton, Event.confirm.injEq] at hw
          exact Or.inl hw
        · simp at hw
      · split at h2
        · simp at h2
        next hsize =>
          split at h2
          · simp at h2
          next hz1 =>
            split at h2
            · simp at h2
            next hz2 =>
              split at h2
              · simp at h2
              next hz3 =>
                split at h2
                · simp at h2
                next hz4 =>
                  split at h2
                  · simp at h2
                  next recipient hrec =>
                    split at h2
                    · simp at h2
                    next hzero =>
                      rcases mem_seqE h2 with h3 | ⟨b, hbok, h4⟩
                      · right
                        push_neg at hsize
                        obtain ⟨hlen, hrecip⟩ := parse_recipient_ok hrec
                        subst hrecip
                        refine ⟨⟨by omega, by omega, by omega, by omega, by omega,
                          by simpa using hz1, by simpa using hz2,
                          by simpa using hz3, by simpa using hz4,
                          hlen, hzero⟩, h3⟩
                      · exfalso
                        have := noConfirm_signStages env req recipient params _ h4
                        simp [isConfirm] at this

lemma std_totalFee_content (env : Env) (req : EthSignRequest) (params : Params)
    (t f : String)
    (h : Event.confirm (ConfirmEvent.verifyTotalFee t f)
          ∈ (verify_standard_transaction env req params).1) :
    t = Amount.format (Amount.mk params.unit WEI_DECIMALS
          (beBytesToNat req.value + (parse_fee req params).value)) ∧
    f = Amount.format (parse_fee req params) := by
  unfold verify_standard_transaction at h
  split at h
  · simp at h
  · split at h
    · simp at h
    next recipient hrec =>
      rcases mem_seqE h with hd | ⟨-, -, h2⟩
      · split at hd
        · simp at hd
        · rcases mem_seqE hd with h3 | ⟨-, -, h4⟩
          · simp [confirmStep] at h3
          · rcases mem_seqE h4 with h5 | ⟨-, -, h6⟩
            · simp [confirmStep] at h5
            · simp [confirmStep] at h6
      · rcases mem_seqE h2 with h3 | ⟨-, -, h4⟩
        · simp [confirmStep] at h3
        · simp only [confirmStep, List.mem_singleton, Event.confirm.injEq,
            ConfirmEvent.verifyTotalFee.injEq] at h4
          exact ⟨h4.1, h4.2⟩

lemma erc20_recipient_content (env : Env) (req : EthSignRequest) (params : Params)
    (r20 : List Nat) (v : Nat) (a amt : String)
    (h : Event.confirm (ConfirmEvent.verifyRecipient a amt)
          ∈ (verify_erc20_transaction env req params r20 v).1) :
    a = env.fromPubkeyHash r20 ∧ amt = (erc20Display env req req.recipient v).1 := by
  unfold verify_erc20_transaction at h
  split at h
  · simp at h
  next r hrec =>
    obtain ⟨-, hr⟩ := parse_recipient_ok hrec
    subst hr
    rcases mem_seqE h with h3 | ⟨-, -, h4⟩
    · simp only [confirmStep, List.mem_singleton, Event.confirm.injEq,
        ConfirmEvent.verifyRecipient.injEq] at h3
      exact ⟨h3.1, h3.2⟩
    · simp [confirmStep] at h4

lemma erc20_totalFee_content (env : Env) (req : EthSignRequest) (params : Params)
    (r20 : List Nat) (v : Nat) (t f : String)
    (h : Event.confirm (ConfirmEvent.verifyTotalFee t f)
          ∈ (verify_erc20_transaction env req params r20 v).1) :
    t = (erc20Display env req req.recipient v).2 ∧
    f = Amount.format (parse_fee req params) := by
  unfold verify_erc20_transaction at h
  split at h
  · simp at h
  next r hrec =>
    obtain ⟨-, hr⟩ := parse_recipient_ok hrec
    subst hr
    rcases mem_seqE h with h3 | ⟨-, -, h4⟩
    · simp [confirmStep] at h3
    · simp only [confirmStep, List.mem_singleton, Event.confirm.injEq,
        ConfirmEvent.verifyTotalFee.injEq] at h4
      exact ⟨h4.1, h4.2⟩

/-- C6: every total/fee confirmation shows as fee the exact product of the
big-endian-decoded gas price and gas limit, in the coin's unit with 18
decimals; for standard transfers the shown total is the exact sum of the
decoded value and that fee. -/
theorem c6_fee_is_product_total_is_sum (env : Env) (req : EthSignRequest)
    (t f : String)
    (h : Event.confirm (ConfirmEvent.verifyTotalFee t f) ∈ (process env req).1) :
    ∃ p, env.paramsGet req.coin = some p ∧
      f = Amount.format (Amount.mk p.unit WEI_DECIMALS
            (beBytesToNat req.gas_price * beBytesToNat req.gas_limit)) ∧
      (parse_erc20 req = none →
        t = Amount.format (Amount.mk p.unit WEI_DECIMALS
              (beBytesToNat req.value
                + beBytesToNat req.gas_price * beBytesToNat req.gas_limit))) := by
  obtain ⟨p, hp, -, hcase⟩ := process_confirm_mem env req _ h
  rcases hcase with heq | ⟨-, hmem⟩
  · simp at heq
  · refine ⟨p, hp, ?_, ?_⟩
    · cases hpe : parse_erc20 req with
      | some rv =>
          rw [hpe] at hmem
          have := (erc20_totalFee_content env req p rv.1 rv.2 t f hmem).2
          rw [this]
          simp [parse_fee]
      | none =>
          rw [hpe] at hmem
          have := (std_totalFee_content env req p t f hmem).2
          rw [this]
          simp [parse_fee]
    · intro hpe
      rw [hpe] at hmem
      have := (std_totalFee_content env req p t f hmem).1
      rw [this]
      simp [parse_fee]

/-- C7: for a token transfer, when token parameters resolve, the confirmed
amount and total are both the token value in the token's unit and decimals
(the fee is never added); when they do not resolve, the literal placeholder
strings are shown; the fee is the exactly formatted native fee either
way. -/
theorem c7_token_transfer_display (env : Env) (req : EthSignRequest)
    (r20 : List Nat) (v : Nat) (a amt t f : String)
    (hpe : parse_erc20 req = some (r20, v))
    (hra : Event.confirm (ConfirmEvent.verifyRecipient a amt) ∈ (process env req).1)
    (htf : Event.confirm (ConfirmEvent.verifyTotalFee t f) ∈ (process env req).1) :
    (∀ tp, env.erc20ParamsGet req.coin req.recipient = some tp →
       amt = Amount.format (Amount.mk tp.unit tp.decimals v) ∧
       t = Amount.format (Amount.mk tp.unit tp.decimals v)) ∧
    (env.erc20ParamsGet req.coin req.recipient = none →
       amt = "Unknown token" ∧ t = "Unknown amount") ∧
    ∃ p, env.paramsGet req.coin = some p ∧
      f = Amount.format (Amount.mk p.unit WEI_DECIMALS
            (beBytesToNat req.gas_price * beBytesToNat req.gas_limit)) := by
  obtain ⟨p, hp, -, hcase⟩ := process_confirm_mem env req _ hra
  rcases hcase with heq | ⟨-, hmemA⟩
  · simp at heq
  obtain ⟨p2, hp2, -, hcase2⟩ := process_confirm_mem env req _ htf
  rcases hcase2 with heq2 | ⟨-, hmemT⟩
  · simp at heq2
  rw [hpe] at hmemA hmemT
  have hA := erc20_recipient_content env req p r20 v a amt hmemA
  have hT := erc20_totalFee_content env req p2 r20 v t f hmemT
  refine ⟨?_, ?_, ?_⟩
  · intro tp htp
    constructor
    · rw [hA.2]
      simp [erc20Display, htp]
    · rw [hT.1]
      simp [erc20Display, htp]
  · intro htp
    constructor
    · rw [hA.2]
      simp [erc20Display, htp]
    · rw [hT.1]
      simp [erc20Display, htp]
  · refine ⟨p2, hp2, ?_⟩
    rw [hT.2]
    simp [parse_fee]

lemma seqE_snd {α β : Type} {x : M α} {a : α} (h : x.2 = Except.ok a)
    (f : α → M β) : (seqE x f).2 = (f a).2 := by
  rw [seqE_ok h]

lemma seqE_snd_error {α β : Type} {x : M α} {e : Error}
    (h : x.2 = Except.error e) (f : α → M β) :
    (seqE x f).2 = Except.error e := by
  rw [seqE_error h]

lemma confirm_ok {env : Env} (hacc : ∀ c, env.respond c = true)
    (c : ConfirmEvent) : (confirmStep env c).2 = Except.ok () := by
  simp [confirmStep, hacc]

lemma warn_ok {env : Env} (params : Params) (keypath : List Nat)
    (hacc : ∀ c, env.respond c = true) :
    (warn_unusual_keypath env params keypath).2 = Except.ok () := by
  unfold warn_unusual_keypath
  split
  · exact confirm_ok hacc _
  · rfl

lemma parse_recipient_error {r : List Nat} {e : Error}
    (h : parse_recipient r = Except.error e) : e = Error.invalidInput := by
  unfold parse_recipient at h
  split at h
  · simp at h
  · simp only [Except.error.injEq] at h
    exact h.symm

lemma std_result_accepting (env : Env) (req : EthSignRequest) (params : Params)
    (hacc : ∀ c, env.respond c = true) :
    (verify_standard_transaction env req params).2 = Except.ok () ∨
    (verify_standard_transaction env req params).2 = Except.error Error.invalidInput := by
  unfold verify_standard_transaction
  split
  · right
    rfl
  · split
    next e he =>
      right
      rw [parse_recipient_error he]
    next recipient hrec =>
      left
      have hchain : (if req.data = [] then (([], Except.ok ()) : M Unit)
          else seqE (confirmStep env (ConfirmEvent.dialog "Unknown\ncontract"
              "You will be shown\nthe raw\ntransaction data." false 0 true))
            (fun _ =>
              seqE (confirmStep env (ConfirmEvent.dialog "Unknown\ncontract"
                  "Only proceed if you\nunderstand exactly\nwhat the data means." false 0 true))
                (fun _ =>
                  confirmStep env (ConfirmEvent.dialog "Transaction\ndata"
                    (hexEncode req.data) true req.data.length true)))).2 = Except.ok () := by
        split
        · rfl
        · rw [seqE_snd (confirm_ok hacc _), seqE_snd (confirm_ok hacc _)]
          exact confirm_ok hacc _
      rw [seqE_snd hchain, seqE_snd (confirm_ok hacc _)]
      exact confirm_ok hacc _

lemma erc20_result_accepting (env : Env) (req : EthSignRequest) (params : Params)
    (r20 : List Nat) (v : Nat) (hacc : ∀ c, env.respond c = true) :
    (verify_erc20_transaction env req params r20 v).2 = Except.ok () ∨
    (verify_erc20_transaction env req params r20 v).2 = Except.error Error.invalidInput := by
  unfold verify_erc20_transaction
  split
  next e he =>
    right
    rw [parse_recipient_error he]
  next r hrec =>
    left
    rw [seqE_snd (confirm_ok hacc _)]
    exact confirm_ok hacc _

/-- C2 (counterexample): on a request whose nonce exceeds the 16-byte
ceiling — so that an Input Validator check fails and the result is
`InvalidInput` — the unusual-keypath warning confirmation is nevertheless
issued first, refuting the claim that no confirmation of any kind is issued
before every Input Validator check has run. -/
theorem c2_warning_before_checks_counterexample :
    16 < oversizedReq.nonce.length ∧
    (process unusualEnv oversizedReq).2 = Except.error Error.invalidInput ∧
    (process unusualEnv oversizedReq).1 =
      [Event.confirm (ConfirmEvent.warnKeypath "Ethereum" [44, 60, 0, 0, 0])] :=
  ⟨by decide, rfl, rfl⟩

/-- C2 (amended): a confirmation in the trace presupposes that the coin
lookup and keypath-shape checks passed, and any confirmation other than the
unusual-keypath warning additionally presupposes that the byte-length,
canonical-encoding and recipient checks all passed. -/
theorem c2_checks_before_confirmations (env : Env) (req : EthSignRequest)
    (c : ConfirmEvent) (hmem : Event.confirm c ∈ (process env req).1) :
    (∃ params, env.paramsGet req.coin = some params) ∧
    env.isValidKeypathAddress req.keypath = true ∧
    ((∀ n kp, ¬ c = ConfirmEvent.warnKeypath n kp) → inputChecksOk req) := by
  obtain ⟨p, hp, hv, hcase⟩ := process_confirm_mem env req c hmem
  refine ⟨⟨p, hp⟩, hv, fun hnw => ?_⟩
  rcases hcase with heq | ⟨hok, -⟩
  · exact absurd heq (hnw _ _)
  · exact hok

theorem c2_checks_before_confirmations_witness :
    (Event.confirm (ConfirmEvent.verifyTotalFee "0.000000000000000013 ETH"
        "0.000000000000000006 ETH") ∈ (process testEnv stdReq).1) ∧
    ((∃ params, testEnv.paramsGet stdReq.coin = some params) ∧
     testEnv.isValidKeypathAddress stdReq.keypath = true ∧
     ((∀ n kp, ¬ ConfirmEvent.verifyTotalFee "0.000000000000000013 ETH"
          "0.000000000000000006 ETH" = ConfirmEvent.warnKeypath n kp) →
        inputChecksOk stdReq)) :=
  ⟨by decide, c2_checks_before_confirmations testEnv stdReq _ (by decide)⟩

theorem c6_fee_is_product_total_is_sum_witness :
    (Event.confirm (ConfirmEvent.verifyTotalFee "0.000000000000000013 ETH"
        "0.000000000000000006 ETH") ∈ (process testEnv stdReq).1) ∧
    (∃ p, testEnv.paramsGet stdReq.coin = some p ∧
      "0.000000000000000006 ETH" = Amount.format (Amount.mk p.unit WEI_DECIMALS
        (beBytesToNat stdReq.gas_price * beBytesToNat stdReq.gas_limit)) ∧
      (parse_erc20 stdReq = none →
        "0.000000000000000013 ETH" = Amount.format (Amount.mk p.unit WEI_DECIMALS
          (beBytesToNat stdReq.value
            + beBytesToNat stdReq.gas_price * beBytesToNat stdReq.gas_limit)))) :=
  ⟨by decide, c6_fee_is_product_total_is_sum testEnv stdReq _ _ (by decide)⟩

theorem c7_token_transfer_display_witness :
    (parse_erc20 erc20Req = some (List.replicate 20 7, 57)) ∧
    (Event.confirm (ConfirmEvent.verifyRecipient "0xADDR" "0.000057 USDT")
        ∈ (process testEnv erc20Req).1) ∧
    (Event.confirm (ConfirmEvent.verifyTotalFee "0.000057 USDT"
        "0.000000000000000006 ETH") ∈ (process testEnv erc20Req).1) ∧
    ((∀ tp, testEnv.erc20ParamsGet erc20Req.coin erc20Req.recipient = some tp →
        "0.000057 USDT" = Amount.format (Amount.mk tp.unit tp.decimals 57) ∧
        "0.000057 USDT" = Amount.format (Amount.mk tp.unit tp.decimals 57)) ∧
     (testEnv.erc20ParamsGet erc20Req.coin erc20Req.recipient = none →
        "0.000057 USDT" = "Unknown token" ∧ "0.000057 USDT" = "Unknown amount") ∧
     ∃ p, testEnv.paramsGet erc20Req.coin = some p ∧
       "0.000000000000000006 ETH" = Amount.format (Amount.mk p.unit WEI_DECIMALS
         (beBytesToNat erc20Req.gas_price * beBytesToNat erc20Req.gas_limit))) :=
  ⟨by decide, by decide, by decide,
    c7_token_transfer_display testEnv erc20Req (List.replicate 20 7) 57
      "0xADDR" "0.000057 USDT" "0.000057 USDT" "0.000000000000000006 ETH"
      (by decide) (by decide) (by decide)⟩

theorem c10_parse_erc20_total_witness :
    erc20Req.data.length = 68 ∧
    ((erc20Req.data.take 4).length = 4 ∧
     ((erc20Req.data.drop 4).take 32).length = 32 ∧
     ((erc20Req.data.drop 36).take 32).length = 32 ∧
     (((erc20Req.data.drop 4).take 32).take 12).length = 12 ∧
     (((erc20Req.data.drop 4).take 32).drop 12).length = 20 ∧
     ∀ r m, parse_erc20 erc20Req = some (r, m) → r.length = 20) :=
  ⟨by decide, c10_parse_erc20_total erc20Req (by decide)⟩

lemma isProtocolCall_of_isConfirm {e : Event} (h : isConfirm e = true) :
    isProtocolCall e = false := by
  cases e <;> simp_all [isConfirm, isProtocolCall]

lemma signStages_commit_invalid (env : Env) (req : EthSignRequest)
    (recipient : List Nat) (params : Params) (cm : List Nat)
    (hcomm : req.host_nonce_commitment = some cm)
    (hlen : ¬ cm.length = COMMITMENT_LEN) :
    (signStages env req recipient params).2 = Except.error Error.invalidInput ∧
    ∀ e ∈ (signStages env req recipient params).1, isProtocolCall e = false := by
  unfold signStages sighashStep hostNonceStage
  rw [hcomm]
  cases hsf : env.sighashFn (SighashParams.mk req.nonce req.gas_price
      req.gas_limit recipient req.value req.data params.chainId) with
  | none =>
      constructor
      · simp [seqE, hsf]
      · simp [seqE, hsf, isProtocolCall]
  | some h =>
      constructor
      · simp [seqE, hsf, hlen]
      · simp [seqE, hsf, hlen, isProtocolCall]

/-- C8: under an accepting confirmation collaborator, any violation of the
byte-length ceilings (nonce/gas price/gas limit 16, value 32, payload 1024)
or of the no-leading-zero canonical-encoding rule yields `InvalidInput`. -/
theorem c8_limits_and_canonical_encoding (env : Env) (req : EthSignRequest)
    (hacc : ∀ c, env.respond c = true)
    (hviol : 16 < req.nonce.length ∨ 16 < req.gas_price.length
      ∨ 16 < req.gas_limit.length ∨ 32 < req.value.length
      ∨ 1024 < req.data.length ∨ startsWithZero req.nonce = true
      ∨ startsWithZero req.gas_price = true
      ∨ startsWithZero req.gas_limit = true
      ∨ startsWithZero req.value = true) :
    (process env req).2 = Except.error Error.invalidInput := by
  unfold process
  split
  · rfl
  next params hp =>
    split
    · rfl
    next hkp =>
      rw [seqE_snd (warn_ok params req.keypath hacc)]
      split
      · rfl
      next hsize =>
        split
        · rfl
        next hz1 =>
          split
          · rfl
          next hz2 =>
            split
            · rfl
            next hz3 =>
              split
              · rfl
              next hz4 =>
                exfalso
                push_neg at hsize
                rcases hviol with h|h|h|h|h|h|h|h|h
                · omega
                · omega
                · omega
                · omega
                · omega
                · exact hz1 h
                · exact hz2 h
                · exact hz3 h
                · exact hz4 h

/-- C9: under an accepting confirmation collaborator, a recipient that is
not exactly 20 bytes, or equal to the all-zero 20-byte address, yields
`InvalidInput` regardless of all other fields. -/
theorem c9_recipient_invalid (env : Env) (req : EthSignRequest)
    (hacc : ∀ c, env.respond c = true)
    (hrec : ¬ req.recipient.length = 20 ∨ req.recipient = List.replicate 20 0) :
    (process env req).2 = Except.error Error.invalidInput := by
  unfold process
  split
  · rfl
  next params hp =>
    split
    · rfl
    next hkp =>
      rw [seqE_snd (warn_ok params req.keypath hacc)]
      split
      · rfl
      next hsize =>
        split
        · rfl
        next hz1 =>
          split
          · rfl
          next hz2 =>
            split
            · rfl
            next hz3 =>
              split
              · rfl
              next hz4 =>
                split
                next e he =>
                  rw [parse_recipient_error he]
                next recipient hpr =>
                  split
                  · rfl
                  next hzero =>
                    exfalso
                    obtain ⟨hlen, hre⟩ := parse_recipient_ok hpr
                    subst hre
                    rcases hrec with h | h
                    · exact h hlen
                    · exact hzero h

/-- C4: under an accepting confirmation collaborator, a host nonce
commitment whose length differs from the primitive's expected fixed width
yields `InvalidInput`, and no keystore call (nonce commit or sign) and no
host round trip ever occurs. -/
theorem c4_commitment_wrong_length (env : Env) (req : EthSignRequest)
    (cm : List Nat) (hacc : ∀ c, env.respond c = true)
    (hcomm : req.host_nonce_commitment = some cm)
    (hlen : ¬ cm.length = COMMITMENT_LEN) :
    (process env req).2 = Except.error Error.invalidInput ∧
    ∀ e ∈ (process env req).1, isProtocolCall e = false := by
  constructor
  · unfold process
    split
    · rfl
    next params hp =>
      split
      · rfl
      next hkp =>
        rw [seqE_snd (warn_ok params req.keypath hacc)]
        split
        · rfl
        next hsize =>
          split
          · rfl
          next hz1 =>
            split
            · rfl
            next hz2 =>
              split
              · rfl
              next hz3 =>
                split
                · rfl
                next hz4 =>
                  split
                  next e he =>
                    rw [parse_recipient_error he]
                  next recipient hpr =>
                    split
                    · rfl
                    next hzero =>
                      split
                      next rv hpe =>
                        rcases erc20_result_accepting env req params rv.1 rv.2 hacc
                          with hok | herr
                        · rw [seqE_snd hok]
                          exact (signStages_commit_invalid env req recipient
                            params cm hcomm hlen).1
                        · rw [seqE_snd_error herr]
                      next hpe =>
                        rcases std_result_accepting env req params hacc
                          with hok | herr
                        · rw [seqE_snd hok]
                          exact (signStages_commit_invalid env req recipient
                            params cm hcomm hlen).1
                        · rw [seqE_snd_error herr]
  · intro e he
    unfold process at he
    split at he
    · simp at he
    next params hp =>
      split at he
      · simp at he
      next hkp =>
        rcases mem_seqE he with hw | ⟨-, -, h2⟩
        · exact isProtocolCall_of_isConfirm ((confProp_warn env params req.keypath).1 e hw)
        · split at h2
          · simp at h2
          next hsize =>
            split at h2
            · simp at h2
            next hz1 =>
              split at h2
              · simp at h2
              next hz2 =>
                split at h2
                · simp at h2
                next hz3 =>
                  split at h2
                  · simp at h2
                  next hz4 =>
                    split at h2
                    · simp at h2
                    next recipient hpr =>
                      split at h2
                      · simp at h2
                      next hzero =>
                        rcases mem_seqE h2 with h3 | ⟨b, hbok, h4⟩
                        · split at h3
                          next rv hpe =>
                            exact isProtocolCall_of_isConfirm
                              ((confProp_erc20 env req params rv.1 rv.2).1 e h3)
                          next hpe =>
                            exact isProtocolCall_of_isConfirm
                              ((confProp_std env req params).1 e h3)
                        · exact (signStages_commit_invalid env req recipient
                            params cm hcomm hlen).2 e h4

/-- C5: a request with empty payload and empty (zero) value shows at most
the unusual-keypath warning — no standard-transfer confirmation step is
ever requested — and, under an accepting collaborator, fails with
`InvalidInput`. -/
theorem c5_empty_payload_and_value (env : Env) (req : EthSignRequest)
    (hd : req.data = []) (hv : req.value = []) :
    (∀ e ∈ (process env req).1,
        ∃ n kp, e = Event.confirm (ConfirmEvent.warnKeypath n kp)) ∧
    ((∀ c, env.respond c = true) →
       (process env req).2 = Except.error Error.invalidInput) := by
  have hnone : parse_erc20 req = none := by
    simp [parse_erc20, hd]
  constructor
  · intro e he
    unfold process at he
    split at he
    · simp at he
    next params hp =>
      split at he
      · simp at he
      next hkp =>
        rcases mem_seqE he with hw | ⟨-, -, h2⟩
        · unfold warn_unusual_keypath at hw
          split at hw
          · simp only [confirmStep, List.mem_singleton] at hw
            exact ⟨_, _, hw⟩
          · simp at hw
        · split at h2
          · simp at h2
          next hsize =>
            split at h2
            · simp at h2
            next hz1 =>
              split at h2
              · simp at h2
              next hz2 =>
                split at h2
                · simp at h2
                next hz3 =>
                  split at h2
                  · simp at h2
                  next hz4 =>
                    split at h2
                    · simp at h2
                    next recipient hpr =>
                      split at h2
                      · simp at h2
                      next hzero =>
                        rcases mem_seqE h2 with h3 | ⟨b, hbok, h4⟩
                        · rw [hnone] at h3
                          simp [verify_standard_transaction, hd, hv] at h3
                        · rw [hnone] at hbok
                          simp [verify_standard_transaction, hd, hv] at hbok
  · intro hacc
    unfold process
    split
    · rfl
    next params hp =>
      split
      · rfl
      next hkp =>
        rw [seqE_snd (warn_ok params req.keypath hacc)]
        split
        · rfl
        next hsize =>
          split
          · rfl
          next hz1 =>
            split
            · rfl
            next hz2 =>
              split
              · rfl
              next hz3 =>
                split
                · rfl
                next hz4 =>
                  split
                  next e he =>
                    rw [parse_recipient_error he]
                  next recipient hpr =>
                    split
                    · rfl
                    next hzero =>
                      rw [hnone]
                      have hbr : (verify_standard_transaction env req params).2
                          = Except.error Error.invalidInput := by
                        simp [verify_standard_transaction, hd, hv]
                      exact seqE_snd_error hbr _

theorem c4_commitment_wrong_length_witness :
    badCommitReq.host_nonce_commitment = some [1, 2, 3] ∧
    ¬ ([1, 2, 3] : List Nat).length = COMMITMENT_LEN ∧
    ((process testEnv badCommitReq).2 = Except.error Error.invalidInput ∧
     ∀ e ∈ (process testEnv badCommitReq).1, isProtocolCall e = false) :=
  ⟨rfl, by decide,
    c4_commitment_wrong_length testEnv badCommitReq [1, 2, 3]
      (fun _ => rfl) rfl (by decide)⟩

theorem c5_empty_payload_and_value_witness :
    emptyReq.data = [] ∧ emptyReq.value = [] ∧
    ((∀ e ∈ (process testEnv emptyReq).1,
        ∃ n kp, e = Event.confirm (ConfirmEvent.warnKeypath n kp)) ∧
     ((∀ c, testEnv.respond c = true) →
        (process testEnv emptyReq).2 = Except.error Error.invalidInput)) :=
  ⟨rfl, rfl, c5_empty_payload_and_value testEnv emptyReq rfl rfl⟩

theorem c8_limits_and_canonical_encoding_witness :
    16 < oversizedReq.nonce.length ∧
    (process testEnv oversizedReq).2 = Except.error Error.invalidInput :=
  ⟨by decide,
    c8_limits_and_canonical_encoding testEnv oversizedReq (fun _ => rfl)
      (Or.inl (by decide))⟩

theorem c9_recipient_invalid_witness :
    zeroRecipientReq.recipient = List.replicate 20 0 ∧
    (process testEnv zeroRecipientReq).2 = Except.error Error.invalidInput :=
  ⟨rfl,
    c9_recipient_invalid testEnv zeroRecipientReq (fun _ => rfl)
      (Or.inr rfl)⟩

end BitBox
